import Mathlib

/-!
Verification of the claims about `bot_logic.py`, a Telegram bot that
downloads the audio track of a submitted URL and uploads it to a folder of
a MEGA cloud-storage account chosen by the user.

The Python source is shallowly embedded below.  External effects (the MEGA
client, the downloader, the Telegram chat API, the file system) are
modelled by injecting their outcomes as explicit arguments (`Except` for
fallible calls, lists of files for directory listings); the pure logic of
each function is translated line by line from the source.  Python dicts are
modelled as association lists (insertion order preserved, first occurrence
of a key is the binding), Python string truthiness (`if not name:`) as the
`Option String` being `none` or the empty string, and the parent-walking
`while` loop of `build_folder_tree` as a fuel-bounded recursion — the fuel
used by the embedding (`(folderNodes files).length`) is enough for every
walk that terminates in Python, i.e. every acyclic parent chain.
-/

namespace BotLogic

/-- Metadata of one node of the flat MEGA file listing, as used by
`build_folder_tree`: `t` is the node type (`meta.get("t")`, `1` for
folders), `name` is `meta.get("a", {}).get("n")` and `p` is
`meta.get("p")` (a missing key is `none`). -/
structure MegaMeta where
  t : Nat
  name : Option String
  p : Option String
deriving DecidableEq, Repr

/-- `folder_nodes = {nid: meta for nid, meta in files.items() if meta.get("t") == 1}`. -/
def folderNodes (files : List (String × MegaMeta)) : List (String × MegaMeta) :=
  files.filter (fun x => x.2.t == 1)

/-- The `while current_parent and current_parent in folder_nodes:` loop of
`build_folder_tree`, accumulating ancestor names onto `parts` exactly as
the source appends them (child-to-root order), with explicit fuel. -/
def walkParts (fns : List (String × MegaMeta)) : Nat → Option String → List String → List String
  | 0, _, parts => parts
  | fuel + 1, currentParent, parts =>
    match currentParent with
    | none => parts
    | some cp =>
      if cp.isEmpty then parts
      else
        match List.lookup cp fns with
        | none => parts
        | some pmeta =>
          let parts' := match pmeta.name with
            | some pn => if pn.isEmpty then parts else parts ++ [pn]
            | none => parts
          walkParts fns fuel pmeta.p parts'

/-- One iteration of the `for nid, meta in folder_nodes.items():` loop:
skip the node when its name is missing or empty, otherwise walk the parent
chain, reverse the collected parts and join them with `/`. -/
def buildEntry (fns : List (String × MegaMeta)) (fuel : Nat) (nid : String)
    (meta : MegaMeta) : Option (String × String) :=
  match meta.name with
  | none => none
  | some name =>
    if name.isEmpty then none
    else
      let parts := walkParts fns fuel meta.p [name]
      some (String.intercalate "/" parts.reverse, nid)

/-- `build_folder_tree` on an already-obtained listing: filter to folder
nodes, emit one `(full_path, nid)` pair per named folder node, then
`sorted(list(set(folder_paths)), key=lambda x: x[0])`. -/
def build_folder_tree (files : List (String × MegaMeta)) : List (String × String) :=
  let fns := folderNodes files
  let folderPaths := fns.filterMap (fun x => buildEntry fns fns.length x.1 x.2)
  folderPaths.dedup.mergeSort (fun a b => decide (a.1 ≤ b.1))

/-- The ancestor names of a node as the specification describes them:
walking parent links upward through the folder nodes, root-most ancestor
first, unnamed ancestors skipped while the walk continues past them. -/
def specAncestors (fns : List (String × MegaMeta)) : Nat → Option String → List String
  | 0, _ => []
  | fuel + 1, currentParent =>
    match currentParent with
    | none => []
    | some cp =>
      if cp.isEmpty then []
      else
        match List.lookup cp fns with
        | none => []
        | some pmeta =>
          specAncestors fns fuel pmeta.p ++
            (match pmeta.name with
             | some pn => if pn.isEmpty then [] else [pn]
             | none => [])

theorem walkParts_reverse (fns : List (String × MegaMeta)) :
    ∀ (fuel : Nat) (cp : Option String) (parts : List String),
      (walkParts fns fuel cp parts).reverse = specAncestors fns fuel cp ++ parts.reverse := by
  intro fuel
  induction fuel with
  | zero => intro cp parts; simp [walkParts, specAncestors]
  | succ n ih =>
    intro cp parts
    cases cp with
    | none => simp [walkParts, specAncestors]
    | some c =>
      by_cases hc : c.isEmpty
      · simp [walkParts, specAncestors, hc]
      · cases hl : List.lookup c fns with
        | none => simp [walkParts, specAncestors, hc, hl]
        | some pmeta =>
          cases hn : pmeta.name with
          | none =>
            simp only [walkParts, specAncestors, hc, hl, hn, if_neg, Bool.not_eq_true]
            rw [ih]
            simp
          | some pn =>
            by_cases hpn : pn.isEmpty
            · simp only [walkParts, specAncestors, hc, hl, hn, hpn, if_true, if_neg,
                Bool.not_eq_true]
              rw [ih]
              simp [hpn]
            · simp only [walkParts, specAncestors, hc, hl, hn, hpn, if_false, if_neg,
                Bool.not_eq_true]
              rw [ih]
              simp [hpn, List.append_assoc]

theorem buildEntry_eq_some (fns : List (String × MegaMeta)) (fuel : Nat) (nid : String)
    (meta : MegaMeta) (pr : String × String) :
    buildEntry fns fuel nid meta = some pr ↔
      ∃ name, meta.name = some name ∧ name.isEmpty = false ∧
        pr = (String.intercalate "/" (specAncestors fns fuel meta.p ++ [name]), nid) := by
  constructor
  · intro h
    cases hn : meta.name with
    | none => simp [buildEntry, hn] at h
    | some name =>
      by_cases he : name.isEmpty
      · simp [buildEntry, hn, he] at h
      · refine ⟨name, rfl, by simpa using he, ?_⟩
        simp only [buildEntry, hn] at h
        rw [if_neg he] at h
        rw [walkParts_reverse] at h
        simp only [List.reverse_cons, List.reverse_nil, List.nil_append,
          Option.some.injEq] at h
        exact h.symm
  · rintro ⟨name, hn, he, hpr⟩
    simp only [buildEntry, hn]
    rw [if_neg (by simp [he])]
    rw [walkParts_reverse]
    simp [hpr]

/-- C1: on every flat listing (with the distinct keys a Python dict
guarantees), `build_folder_tree` considers exactly the nodes whose type
field `t` equals `1`, and a pair `(p, nid)` is in the result precisely
when node `nid` is a folder node with a non-empty name whose full path `p`
is the slash-joined walk of parent links (root-most ancestor first, the
node's own name last, unnamed ancestors skipped while the walk continues
past them); unnamed folder nodes are omitted. -/
theorem claim_C1 (files : List (String × MegaMeta))
    (hkeys : (files.map Prod.fst).Nodup) (p nid : String) :
    (p, nid) ∈ build_folder_tree files ↔
      ∃ meta name, (nid, meta) ∈ files ∧ meta.t = 1 ∧ meta.name = some name ∧
        name.isEmpty = false ∧
        p = String.intercalate "/"
          (specAncestors (folderNodes files) (folderNodes files).length meta.p ++ [name]) := by
  simp only [build_folder_tree]
  constructor
  · intro h
    have h1 : (p, nid) ∈ (folderNodes files).filterMap
        (fun x => buildEntry (folderNodes files) (folderNodes files).length x.1 x.2) := by
      have h2 := (List.mergeSort_perm _ _).mem_iff.mp h
      simpa [List.mem_dedup] using h2
    obtain ⟨x, hx, hbe⟩ := List.mem_filterMap.mp h1
    obtain ⟨name, hn, he, hpr⟩ := (buildEntry_eq_some _ _ _ _ _).mp hbe
    obtain ⟨hxf, hxt⟩ := List.mem_filter.mp hx
    have hnid : nid = x.1 := congrArg Prod.snd hpr
    have hp' : p = String.intercalate "/"
        (specAncestors (folderNodes files) (folderNodes files).length x.2.p ++ [name]) :=
      congrArg Prod.fst hpr
    refine ⟨x.2, name, ?_, ?_, hn, he, hp'⟩
    · rw [hnid]
      simpa using hxf
    · simpa using hxt
  · rintro ⟨meta, name, hmem, ht, hn, he, hp⟩
    have hx : (nid, meta) ∈ folderNodes files :=
      List.mem_filter.mpr ⟨hmem, by simp [ht]⟩
    have hbe : buildEntry (folderNodes files) (folderNodes files).length nid meta
        = some (p, nid) :=
      (buildEntry_eq_some _ _ _ _ _).mpr ⟨name, hn, he, by simp [hp]⟩
    have h1 : (p, nid) ∈ (folderNodes files).filterMap
        (fun x => buildEntry (folderNodes files) (folderNodes files).length x.1 x.2) :=
      List.mem_filterMap.mpr ⟨(nid, meta), hx, hbe⟩
    exact (List.mergeSort_perm _ _).mem_iff.mpr (List.mem_dedup.mpr h1)

/-- Witness for C1: a two-node listing (folder `Music` inside folder
`Root`) yields the pair `("Root/Music", "m1")`. -/
theorem claim_C1_witness :
    ("Root/Music", "m1") ∈ build_folder_tree
      [("r1", ⟨1, some "Root", none⟩), ("m1", ⟨1, some "Music", some "r1"⟩)] :=
  (claim_C1 [("r1", ⟨1, some "Root", none⟩), ("m1", ⟨1, some "Music", some "r1"⟩)]
    (by decide) "Root/Music" "m1").mpr
    ⟨⟨1, some "Music", some "r1"⟩, "Music", by decide, rfl, rfl, rfl, by decide⟩

/-- C5: on every input listing, `build_folder_tree` returns a list without
duplicate `(path, identifier)` pairs, sorted in ascending order of the
path component. -/
theorem claim_C5 (files : List (String × MegaMeta)) :
    (build_folder_tree files).Nodup ∧
      (build_folder_tree files).Pairwise (fun a b => a.1 ≤ b.1) := by
  constructor
  · simp only [build_folder_tree]
    exact (List.mergeSort_perm _ _).symm.nodup (List.nodup_dedup _)
  · have htrans : ∀ a b c : String × String,
        decide (a.1 ≤ b.1) = true → decide (b.1 ≤ c.1) = true →
          decide (a.1 ≤ c.1) = true := by
      intro a b c hab hbc
      simp only [decide_eq_true_eq] at hab hbc ⊢
      exact le_trans hab hbc
    have htot : ∀ a b : String × String,
        (decide (a.1 ≤ b.1) || decide (b.1 ≤ a.1)) = true := by
      intro a b
      simpa [decide_eq_true_eq] using le_total a.1 b.1
    simp only [build_folder_tree]
    have hp := List.sorted_mergeSort htrans htot
      (((folderNodes files).filterMap
        (fun x => buildEntry (folderNodes files) (folderNodes files).length x.1 x.2)).dedup)
    exact hp.imp (fun h => of_decide_eq_true h)

/-- A per-user session: the Python dict `{"url": yt_url}` to which a
`"folders"` key is later added. -/
structure Session where
  url : String
  folders : Option (List (String × String)) := none
deriving DecidableEq, Repr

/-- `USER_SESSIONS[uid] = s`: Python dict assignment on an association
list — replace the binding in place when the key is present, append it
otherwise. -/
def setSession : List (Nat × Session) → Nat → Session → List (Nat × Session)
  | [], uid, s => [(uid, s)]
  | (k, v) :: rest, uid, s =>
    if k == uid then (uid, s) :: rest else (k, v) :: setSession rest uid s

/-- `USER_SESSIONS.pop(uid, None)`: remove the binding for `uid` when
present. -/
def popSession : List (Nat × Session) → Nat → List (Nat × Session)
  | [], _ => []
  | (k, v) :: rest, uid => if k == uid then rest else (k, v) :: popSession rest uid

theorem lookup_setSession_self (m : List (Nat × Session)) (uid : Nat) (s : Session) :
    List.lookup uid (setSession m uid s) = some s := by
  induction m with
  | nil => simp [setSession, List.lookup]
  | cons kv rest ih =>
    obtain ⟨k, v⟩ := kv
    by_cases hk : k = uid
    · simp [setSession, hk, List.lookup]
    · simp only [setSession, beq_iff_eq, hk, if_false]
      have hbe : (uid == k) = false := by simp [Ne.symm hk]
      simp only [List.lookup, hbe]
      exact ih

theorem lookup_setSession_other (m : List (Nat × Session)) (uid v : Nat) (s : Session)
    (h : v ≠ uid) : List.lookup v (setSession m uid s) = List.lookup v m := by
  induction m with
  | nil =>
    have hbe : (v == uid) = false := by simp [h]
    simp [setSession, List.lookup, hbe]
  | cons kv rest ih =>
    obtain ⟨k, w⟩ := kv
    by_cases hk : k = uid
    · subst hk
      have hbe : (v == k) = false := by simp [h]
      simp only [setSession, beq_self_eq_true, if_true, List.lookup, hbe]
    · simp only [setSession, beq_iff_eq, hk, if_false]
      by_cases hv : v = k
      · simp [List.lookup, hv]
      · have hbe : (v == k) = false := by simp [hv]
        simp only [List.lookup, hbe]
        exact ih

theorem lookup_eq_none_of_not_mem_keys (m : List (Nat × Session)) (uid : Nat)
    (h : uid ∉ m.map Prod.fst) : List.lookup uid m = none := by
  induction m with
  | nil => simp [List.lookup]
  | cons kv rest ih =>
    obtain ⟨k, v⟩ := kv
    simp only [List.map_cons, List.mem_cons, not_or] at h
    have hbe : (uid == k) = false := by simp [h.1]
    simp only [List.lookup, hbe]
    exact ih h.2

theorem lookup_popSession_self (m : List (Nat × Session)) (uid : Nat)
    (hkeys : (m.map Prod.fst).Nodup) : List.lookup uid (popSession m uid) = none := by
  induction m with
  | nil => simp [popSession, List.lookup]
  | cons kv rest ih =>
    obtain ⟨k, v⟩ := kv
    simp only [List.map_cons, List.nodup_cons] at hkeys
    by_cases hk : k = uid
    · subst hk
      simp only [popSession, beq_self_eq_true, if_true]
      exact lookup_eq_none_of_not_mem_keys rest k hkeys.1
    · simp only [popSession, beq_iff_eq, hk, if_false]
      have hbe : (uid == k) = false := by simp [Ne.symm hk]
      simp only [List.lookup, hbe]
      exact ih hkeys.2

theorem lookup_popSession_other (m : List (Nat × Session)) (uid v : Nat)
    (h : v ≠ uid) : List.lookup v (popSession m uid) = List.lookup v m := by
  induction m with
  | nil => simp [popSession]
  | cons kv rest ih =>
    obtain ⟨k, w⟩ := kv
    by_cases hk : k = uid
    · subst hk
      have hbe : (v == k) = false := by simp [h]
      simp only [popSession, beq_self_eq_true, if_true, List.lookup, hbe]
    · simp only [popSession, beq_iff_eq, hk, if_false]
      by_cases hv : v = k
      · simp [List.lookup, hv]
      · have hbe : (v == k) = false := by simp [hv]
        simp only [List.lookup, hbe]
        exact ih

/-- The observable outcome of one Telegram handler run: the chat texts
sent or edited in order, the session map afterwards, the inline keyboard
buttons offered as `(label, callback_data)` pairs, and the cloud-storage
upload calls performed as `(file_path, node_id)` argument pairs. -/
structure HandlerResult where
  messages : List String
  sessions : List (Nat × Session)
  buttons : List (String × String) := []
  uploads : List (String × String) := []
deriving DecidableEq, Repr

def USAGE_MSG : String := "⚠️ Usage: `/uploadtomega <YouTube URL>`"

def FETCHING_MSG : String := "📂 Fetching MEGA folders... ⏳"

def NO_FOLDERS_MSG : String := "⚠️ No folders found in MEGA account."

def SELECT_MSG : String := "📁 *Select MEGA Folder:*"

def fetchErrorMsg (e : String) : String :=
  "❌ Error fetching MEGA folders:\n`" ++ e ++ "`"

def INVALID_DATA_MSG : String := "⚠️ Invalid selection data."

def SESSION_EXPIRED_MSG : String := "⚠️ Session expired. Run /uploadtomega again."

def DOWNLOADING_MSG : String := "🎬 Downloading MP3... ⏳"

def uploadingMsg (folderPath : String) : String :=
  "☁️ Uploading to MEGA folder: `" ++ folderPath ++ "`... ⏳"

def downloadFailedMsg (e : String) : String :=
  "❌ YouTube download failed:\n`" ++ e ++ "`"

def uploadFailedMsg (e : String) : String :=
  "❌ Upload failed:\n`" ++ e ++ "`"

/-- Split a character list at every occurrence of `sep`, keeping empty
fields, exactly as Python `str.split` with an explicit separator does. -/
def splitChar (sep : Char) : List Char → List (List Char)
  | [] => [[]]
  | c :: rest =>
    let r := splitChar sep rest
    if c = sep then [] :: r
    else
      match r with
      | [] => [[c]]
      | hd :: tl => (c :: hd) :: tl

/-- `str.strip()`: remove leading and trailing whitespace. -/
def stripStr (s : String) : String :=
  String.mk (((s.toList.dropWhile Char.isWhitespace).reverse.dropWhile
    Char.isWhitespace).reverse)

/-- `os.path.basename`: the part of the path after the last slash. -/
def basename (p : String) : String :=
  String.mk ((splitChar '/' p.toList).getLastD [])

def uploadCompleteMsg (mp3Path folderPath : String) : String :=
  "✅ *Upload Complete!*\n\n📄 File: `" ++ basename mp3Path ++
    "`\n📁 Folder: `" ++ folderPath ++ "`"

/-- The two swallowed failure points at the top of `build_folder_tree`:
`mega_login()` and `m.get_files()` are each wrapped in a
`try/except` that logs and returns the empty list, so neither failure is
visible to the caller except as an empty folder tree. -/
def build_folder_tree_run (login : Except String Unit)
    (files : Except String (List (String × MegaMeta))) : List (String × String) :=
  match login with
  | .error _ => []
  | .ok _ =>
    match files with
    | .error _ => []
    | .ok fs => build_folder_tree fs

/-- The `/uploadtomega` handler.  `uid` is `update.effective_user.id`,
`args` is `context.args`, and `tree` injects the outcome of the
`build_folder_tree` call run on the executor (`.error` when that call
raises, which the surrounding `try/except` reports as a fetch error). -/
def uploadtomega (uid : Nat) (args : List String)
    (sessions : List (Nat × Session))
    (tree : Except String (List (String × String))) : HandlerResult :=
  match args with
  | [] => { messages := [USAGE_MSG], sessions := sessions }
  | arg0 :: _ =>
    let ytUrl := stripStr arg0
    let sessions1 := setSession sessions uid { url := ytUrl, folders := none }
    match tree with
    | .error e => { messages := [FETCHING_MSG, fetchErrorMsg e], sessions := sessions1 }
    | .ok folders =>
      if folders.isEmpty then
        { messages := [FETCHING_MSG, NO_FOLDERS_MSG], sessions := sessions1 }
      else
        { messages := [FETCHING_MSG, SELECT_MSG]
          sessions := setSession sessions1 uid { url := ytUrl, folders := some folders }
          buttons := folders.map (fun pn =>
            ("📁 " ++ pn.1,
             "choose|" ++ toString uid ++ "|" ++ pn.2 ++ "|" ++ pn.1)) }

/-- `query.data.split("|")` as a list of strings. -/
def splitOnBar (s : String) : List String :=
  (splitChar '|' s.toList).map (fun cs => String.mk cs)

/-- `int(uid)` on a decimal digit string; `none` stands for the
`ValueError` that `int` raises on anything else. -/
def parseNat (s : String) : Option Nat :=
  match s.toList with
  | [] => none
  | c :: rest =>
    if (c :: rest).all (fun ch => ch.isDigit) then
      some ((c :: rest).foldl (fun acc ch => 10 * acc + (ch.toNat - 48)) 0)
    else none

/-- `action, uid, nodeid, folder_path = query.data.split("|"); uid = int(uid)`,
with the `except ValueError` branch as `none` (wrong number of fields or a
non-numeric user id). -/
def parseCallbackData (data : String) : Option (String × Nat × String × String) :=
  match splitOnBar data with
  | [action, uidStr, nodeid, folderPath] =>
    match parseNat uidStr with
    | some uid => some (action, uid, nodeid, folderPath)
    | none => none
  | _ => none

/-- The inline-button callback handler.  `presser` is the id of the user
who pressed the button (available in the update but never read by the
source), `data` is `query.data`; `download`, `login` and `upload` inject
the outcomes of `download_mp3`, `mega_login()` and `mega.upload`.  Note
the download-failure branch returns without reaching
`USER_SESSIONS.pop(uid, None)`. -/
def callback_handler (presser : Nat) (data : String)
    (sessions : List (Nat × Session))
    (download : String → Except String String)
    (login : Except String Unit)
    (upload : String → String → Except String Unit) : HandlerResult :=
  match parseCallbackData data with
  | none => { messages := [INVALID_DATA_MSG], sessions := sessions }
  | some (_action, uid, nodeid, folderPath) =>
    match List.lookup uid sessions with
    | none => { messages := [SESSION_EXPIRED_MSG], sessions := sessions }
    | some sess =>
      match download sess.url with
      | .error e =>
        { messages := [DOWNLOADING_MSG, downloadFailedMsg e], sessions := sessions }
      | .ok mp3Path =>
        match login with
        | .error e =>
          { messages := [DOWNLOADING_MSG, uploadingMsg folderPath, uploadFailedMsg e]
            sessions := popSession sessions uid }
        | .ok _ =>
          match upload mp3Path nodeid with
          | .ok _ =>
            { messages := [DOWNLOADING_MSG, uploadingMsg folderPath,
                           uploadCompleteMsg mp3Path folderPath]
              sessions := popSession sessions uid
              uploads := [(mp3Path, nodeid)] }
          | .error e =>
            { messages := [DOWNLOADING_MSG, uploadingMsg folderPath, uploadFailedMsg e]
              sessions := popSession sessions uid
              uploads := [(mp3Path, nodeid)] }

/-- The option dictionary `ydl_opts` of `download_mp3`. -/
structure YdlOpts where
  format : String
  outtmpl : String
  quiet : Bool
  noplaylist : Bool
  no_check_certificate : Bool
  postprocessorKey : String
  preferredcodec : String
  preferredquality : String
deriving DecidableEq, Repr

def DOWNLOAD_DIR : String := "temp_downloads"

/-- The literal option set of the source, `outtmpl` being
`os.path.join(DOWNLOAD_DIR, "%(title)s.%(ext)s")`. -/
def ydl_opts : YdlOpts :=
  { format := "bestaudio/best"
    outtmpl := "temp_downloads/%(title)s.%(ext)s"
    quiet := false
    noplaylist := true
    no_check_certificate := true
    postprocessorKey := "FFmpegExtractAudio"
    preferredcodec := "mp3"
    preferredquality := "192" }

/-- One entry of the download-directory listing: file name and
modification time (`os.path.getmtime`). -/
structure DirFile where
  name : String
  mtime : Nat
deriving DecidableEq, Repr

/-- `f.lower().endswith(".mp3")`, embedded at the character level: the
lower-cased character sequence of the name ends with `.mp3`. -/
def isMp3 (f : String) : Bool :=
  List.isSuffixOf ".mp3".toList (f.toList.map Char.toLower)

/-- `download_mp3`: run the downloader (injected as `extract`, which
receives the URL and the fixed `ydl_opts` and either raises or adds files
to the directory), then pick from the whole directory listing the files
ending in `.mp3`, raise when there are none, and return the one with the
newest modification time (`sort(key=getmtime, reverse=True)` then
`mp3_files[0]`).  `pre` is whatever the shared directory already
contained.  Python's `list.sort` is a stable sort, embedded here as the
stable `insertionSort` by the same descending key order — stable sorting
output is unique, so the choice of algorithm is immaterial. -/
def download_mp3 (url : String) (pre : List DirFile)
    (extract : String → YdlOpts → Except String (List DirFile)) : Except String String :=
  match extract url ydl_opts with
  | .error e => .error e
  | .ok produced =>
    let listing := pre ++ produced
    let mp3Files := listing.filter (fun f => isMp3 f.name)
    match List.insertionSort (fun a b => b.mtime ≤ a.mtime) mp3Files with
    | [] => .error "MP3 output not found."
    | f :: _ => .ok (DOWNLOAD_DIR ++ "/" ++ f.name)

/-- The fixed response of the health-check server. -/
def HEALTH_RESPONSE : String :=
  "HTTP/1.1 200 OK\r\nContent-Type: text/plain\r\n\r\nBot is running!"

/-- One accepted connection of the health-check loop: the loop body
receives up to 1024 request bytes, ignores their content, and sends the
fixed response; it never references the chat API or `USER_SESSIONS`, so
the session map is threaded through unchanged. -/
def health_check_handle (request : List Nat) (sessions : List (Nat × Session)) :
    String × List (Nat × Session) :=
  (HEALTH_RESPONSE, sessions)

/-- Shared shape of a successful `download_mp3` run: the returned path
names a `.mp3` file of the final listing whose modification time is
maximal among the `.mp3` files. -/
theorem download_mp3_ok (url : String) (pre : List DirFile)
    (extract : String → YdlOpts → Except String (List DirFile))
    (produced : List DirFile) (p : String)
    (he : extract url ydl_opts = Except.ok produced)
    (hok : download_mp3 url pre extract = Except.ok p) :
    ∃ f, f ∈ (pre ++ produced).filter (fun f => isMp3 f.name) ∧
      p = DOWNLOAD_DIR ++ "/" ++ f.name ∧
      ∀ g ∈ (pre ++ produced).filter (fun f => isMp3 f.name), g.mtime ≤ f.mtime := by
  haveI : IsTotal DirFile (fun a b => b.mtime ≤ a.mtime) :=
    ⟨fun a b => Nat.le_total b.mtime a.mtime⟩
  haveI : IsTrans DirFile (fun a b => b.mtime ≤ a.mtime) :=
    ⟨fun _ _ _ hab hbc => le_trans hbc hab⟩
  have hsorted := List.sorted_insertionSort (fun a b : DirFile => b.mtime ≤ a.mtime)
    ((pre ++ produced).filter (fun f => isMp3 f.name))
  have hperm := List.perm_insertionSort (fun a b : DirFile => b.mtime ≤ a.mtime)
    ((pre ++ produced).filter (fun f => isMp3 f.name))
  simp only [download_mp3, he] at hok
  cases hl : List.insertionSort (fun a b : DirFile => b.mtime ≤ a.mtime)
      ((pre ++ produced).filter (fun f => isMp3 f.name)) with
  | nil =>
    rw [hl] at hok
    exact absurd hok (by simp)
  | cons f rest =>
    rw [hl] at hok
    have hp : p = DOWNLOAD_DIR ++ "/" ++ f.name := (Except.ok.inj hok).symm
    refine ⟨f, ?_, hp, ?_⟩
    · rw [hl] at hperm
      exact hperm.mem_iff.mp (List.mem_cons_self f rest)
    · intro g hg
      rw [hl] at hperm hsorted
      have hg' := hperm.mem_iff.mpr hg
      rcases List.mem_cons.mp hg' with hgf | hgrest
      · subst hgf; exact le_refl _
      · exact (List.pairwise_cons.mp hsorted).1 g hgrest

/-- C8: every accepted connection of the health-check listener gets the
same fixed `200 OK` response whatever the request bytes were, and the
listener leaves the session state untouched. -/
theorem claim_C8 (request request2 : List Nat) (sessions : List (Nat × Session)) :
    health_check_handle request sessions = (HEALTH_RESPONSE, sessions) ∧
      (health_check_handle request sessions).1 = (health_check_handle request2 sessions).1 ∧
      (health_check_handle request sessions).2 = sessions :=
  ⟨rfl, rfl, rfl⟩

/-- C10: the callback handler ignores the identity of the user who
pressed the button — the user id it acts on comes from the callback data —
so two presses with the same callback data against the same session map
and the same injected step outcomes behave identically. -/
theorem claim_C10 (p1 p2 : Nat) (data : String) (sessions : List (Nat × Session))
    (download : String → Except String String) (login : Except String Unit)
    (upload : String → String → Except String Unit) :
    callback_handler p1 data sessions download login upload =
      callback_handler p2 data sessions download login upload := rfl

/-- C7: whenever the callback flow's download succeeds (and the storage
login that precedes the upload call succeeds, since otherwise `upload` is
never reached), the upload method is called exactly once, with exactly the
downloaded file path and the node id carried in the chosen button's
callback data. -/
theorem claim_C7 (presser : Nat) (data : String) (sessions : List (Nat × Session))
    (download : String → Except String String)
    (upload : String → String → Except String Unit)
    (action : String) (uid : Nat) (nodeid folderPath : String) (sess : Session)
    (mp3Path : String)
    (hp : parseCallbackData data = some (action, uid, nodeid, folderPath))
    (hs : List.lookup uid sessions = some sess)
    (hd : download sess.url = Except.ok mp3Path) :
    (callback_handler presser data sessions download (Except.ok ()) upload).uploads
      = [(mp3Path, nodeid)] := by
  simp only [callback_handler, hp, hs, hd]
  cases upload mp3Path nodeid <;> rfl

/-- Witness for C7 at a concrete button press. -/
theorem claim_C7_witness :
    (callback_handler 0 "choose|1|node42|Music" [(1, { url := "u", folders := none })]
        (fun _ => Except.ok "temp_downloads/a.mp3") (Except.ok ())
        (fun _ _ => Except.ok ())).uploads
      = [("temp_downloads/a.mp3", "node42")] :=
  claim_C7 0 "choose|1|node42|Music" [(1, { url := "u", folders := none })]
    (fun _ => Except.ok "temp_downloads/a.mp3") (fun _ _ => Except.ok ())
    "choose" 1 "node42" "Music" { url := "u", folders := none } "temp_downloads/a.mp3"
    rfl rfl rfl

/-- C2 as claimed is false: on the download-failure outcome the handler
returns before `USER_SESSIONS.pop(uid, None)`, so the session survives.
Concretely, user 1's session is intact after the handler reports a
download failure. -/
theorem claim_C2_counterexample :
    ((callback_handler 0 "choose|1|n|f" [(1, { url := "u", folders := none })]
        (fun _ => Except.error "boom") (Except.ok ()) (fun _ _ => Except.ok ())).messages
      = [DOWNLOADING_MSG, downloadFailedMsg "boom"]) ∧
    ((callback_handler 0 "choose|1|n|f" [(1, { url := "u", folders := none })]
        (fun _ => Except.error "boom") (Except.ok ()) (fun _ _ => Except.ok ())).sessions
      = [(1, { url := "u", folders := none })]) :=
  ⟨rfl, rfl⟩

/-- C2 (amended): for every callback run whose session lookup succeeds,
the session entry is removed when the handler reports upload success or
upload failure; but when it reports download failure the handler returns
before the removal and the session map is left unchanged. -/
theorem claim_C2_amended (presser : Nat) (data : String)
    (sessions : List (Nat × Session))
    (download : String → Except String String) (login : Except String Unit)
    (upload : String → String → Except String Unit)
    (action : String) (uid : Nat) (nodeid folderPath : String) (sess : Session)
    (hp : parseCallbackData data = some (action, uid, nodeid, folderPath))
    (hs : List.lookup uid sessions = some sess) :
    (∀ e, download sess.url = Except.error e →
      (callback_handler presser data sessions download login upload).sessions
        = sessions) ∧
    (∀ mp3Path, download sess.url = Except.ok mp3Path →
      (callback_handler presser data sessions download login upload).sessions
        = popSession sessions uid) ∧
    ((sessions.map Prod.fst).Nodup → ∀ mp3Path, download sess.url = Except.ok mp3Path →
      List.lookup uid
        (callback_handler presser data sessions download login upload).sessions
        = none) := by
  refine ⟨?_, ?_, ?_⟩
  · intro e hd
    simp [callback_handler, hp, hs, hd]
  · intro mp3Path hd
    simp only [callback_handler, hp, hs, hd]
    cases login with
    | error e => rfl
    | ok _ => cases upload mp3Path nodeid <;> rfl
  · intro hkeys mp3Path hd
    simp only [callback_handler, hp, hs, hd]
    cases login with
    | error e => exact lookup_popSession_self sessions uid hkeys
    | ok _ =>
      cases upload mp3Path nodeid <;> exact lookup_popSession_self sessions uid hkeys

/-- Witness for the amended C2 at a concrete successful run. -/
theorem claim_C2_witness :
    (callback_handler 0 "choose|2|n|f" [(2, { url := "v", folders := none })]
        (fun _ => Except.ok "temp_downloads/b.mp3") (Except.ok ())
        (fun _ _ => Except.ok ())).sessions
      = popSession [(2, { url := "v", folders := none })] 2 :=
  (claim_C2_amended 0 "choose|2|n|f" [(2, { url := "v", folders := none })]
    (fun _ => Except.ok "temp_downloads/b.mp3") (Except.ok ()) (fun _ _ => Except.ok ())
    "choose" 2 "n" "f" { url := "v", folders := none } rfl rfl).2.1
    "temp_downloads/b.mp3" rfl

/-- C3 as claimed is false: a storage login failure is not reported to
the user as an error.  `build_folder_tree` swallows the login exception
and returns the empty list, which `/uploadtomega` presents as the
"no folders found" warning; the fetch-error message never appears. -/
theorem claim_C3_counterexample :
    ((uploadtomega 7 ["url"] []
        (Except.ok (build_folder_tree_run (Except.error "login failed")
          (Except.ok [])))).messages
      = [FETCHING_MSG, NO_FOLDERS_MSG]) ∧
    fetchErrorMsg "login failed" ∉
      (uploadtomega 7 ["url"] []
        (Except.ok (build_folder_tree_run (Except.error "login failed")
          (Except.ok [])))).messages :=
  ⟨rfl, by decide⟩

/-- C3 (amended): exceptions in the download step, the upload step and
any exception escaping the folder-fetch call are caught and reported as
chat error messages; but storage login and listing failures inside
`build_folder_tree` are swallowed into an empty folder tree, which the
user sees as a "no folders found" warning rather than an error. -/
theorem claim_C3_amended :
    (∀ e files, build_folder_tree_run (Except.error e) files = []) ∧
    (∀ login e, build_folder_tree_run login (Except.error e) = []) ∧
    (∀ uid arg0 rest sessions e,
      (uploadtomega uid (arg0 :: rest) sessions (Except.error e)).messages
        = [FETCHING_MSG, fetchErrorMsg e]) ∧
    (∀ presser data sessions download login upload action uid nodeid folderPath sess e,
      parseCallbackData data = some (action, uid, nodeid, folderPath) →
      List.lookup uid sessions = some sess →
      download sess.url = Except.error e →
      (callback_handler presser data sessions download login upload).messages
        = [DOWNLOADING_MSG, downloadFailedMsg e]) ∧
    (∀ presser data sessions download upload action uid nodeid folderPath sess mp3Path e,
      parseCallbackData data = some (action, uid, nodeid, folderPath) →
      List.lookup uid sessions = some sess →
      download sess.url = Except.ok mp3Path →
      upload mp3Path nodeid = Except.error e →
      (callback_handler presser data sessions download (Except.ok ()) upload).messages
        = [DOWNLOADING_MSG, uploadingMsg folderPath, uploadFailedMsg e]) := by
  refine ⟨?_, ?_, ?_, ?_, ?_⟩
  · intro e files; rfl
  · intro login e; cases login <;> rfl
  · intro uid arg0 rest sessions e; rfl
  · intro presser data sessions download login upload action uid nodeid folderPath sess e
      hp hs hd
    simp [callback_handler, hp, hs, hd]
  · intro presser data sessions download upload action uid nodeid folderPath sess mp3Path e
      hp hs hd hu
    simp [callback_handler, hp, hs, hd, hu]

/-- Witness for the amended C3 at concrete failing runs. -/
theorem claim_C3_witness :
    build_folder_tree_run (Except.error "x") (Except.ok []) = [] ∧
    (uploadtomega 1 ["u"] [] (Except.error "e")).messages
      = [FETCHING_MSG, fetchErrorMsg "e"] ∧
    (callback_handler 0 "choose|1|n|f" [(1, { url := "u", folders := none })]
        (fun _ => Except.error "dl") (Except.ok ()) (fun _ _ => Except.ok ())).messages
      = [DOWNLOADING_MSG, downloadFailedMsg "dl"] :=
  ⟨claim_C3_amended.1 "x" (Except.ok []),
   claim_C3_amended.2.2.1 1 "u" [] [] "e",
   claim_C3_amended.2.2.2.1 0 "choose|1|n|f" [(1, { url := "u", folders := none })]
     (fun _ => Except.error "dl") (Except.ok ()) (fun _ _ => Except.ok ())
     "choose" 1 "n" "f" { url := "u", folders := none } "dl" rfl rfl rfl⟩

/-- C4: `download_mp3` passes the downloader the fixed option set (best
audio, no playlist, mp3 postprocessing at quality 192); it propagates the
downloader's error, raises `MP3 output not found.` when the directory
holds no `.mp3` file afterwards, and otherwise returns the path of a file
of the download directory whose lower-cased name ends in `.mp3`. -/
theorem claim_C4 (url : String) (pre : List DirFile)
    (extract : String → YdlOpts → Except String (List DirFile)) :
    ydl_opts = { format := "bestaudio/best", outtmpl := "temp_downloads/%(title)s.%(ext)s",
                 quiet := false, noplaylist := true, no_check_certificate := true,
                 postprocessorKey := "FFmpegExtractAudio", preferredcodec := "mp3",
                 preferredquality := "192" } ∧
    (∀ e, extract url ydl_opts = Except.error e →
      download_mp3 url pre extract = Except.error e) ∧
    (∀ produced, extract url ydl_opts = Except.ok produced →
      ((pre ++ produced).filter (fun f => isMp3 f.name) = [] →
        download_mp3 url pre extract = Except.error "MP3 output not found.") ∧
      (∀ p, download_mp3 url pre extract = Except.ok p →
        ∃ f, f ∈ pre ++ produced ∧ isMp3 f.name = true ∧
          p = DOWNLOAD_DIR ++ "/" ++ f.name)) := by
  refine ⟨rfl, ?_, ?_⟩
  · intro e he
    simp [download_mp3, he]
  · intro produced he
    constructor
    · intro hempty
      simp only [download_mp3, he]
      rw [hempty]
      rfl

    · intro p hok
      obtain ⟨f, hf, hp, _⟩ := download_mp3_ok url pre extract produced p he hok
      obtain ⟨hfmem, hfmp3⟩ := List.mem_filter.mp hf
      exact ⟨f, hfmem, hfmp3, hp⟩

/-- Witness for C4 at a concrete run producing one mp3 file. -/
theorem claim_C4_witness :
    ∃ f, f ∈ ([] : List DirFile) ++ [{ name := "Song.MP3", mtime := 3 }] ∧
      isMp3 f.name = true ∧
      "temp_downloads/Song.MP3" = DOWNLOAD_DIR ++ "/" ++ f.name :=
  ((claim_C4 "u" [] (fun _ _ => Except.ok [{ name := "Song.MP3", mtime := 3 }])).2.2
    [{ name := "Song.MP3", mtime := 3 }] rfl).2 "temp_downloads/Song.MP3" (by rfl)

/-- C9: a successful `download_mp3` returns the `.mp3` file with the
newest modification time among all `.mp3` files of the shared directory,
which need not be a file the downloader just produced: with a leftover
`old.mp3` newer than the produced `new.mp3`, the leftover is returned. -/
theorem claim_C9 :
    (∀ url pre extract produced p,
      extract url ydl_opts = Except.ok produced →
      download_mp3 url pre extract = Except.ok p →
      ∃ f, f ∈ pre ++ produced ∧ isMp3 f.name = true ∧
        p = DOWNLOAD_DIR ++ "/" ++ f.name ∧
        ∀ g, g ∈ pre ++ produced → isMp3 g.name = true → g.mtime ≤ f.mtime) ∧
    (download_mp3 "u" [{ name := "old.mp3", mtime := 10 }]
        (fun _ _ => Except.ok [{ name := "new.mp3", mtime := 5 }])
      = Except.ok "temp_downloads/old.mp3" ∧
     ({ name := "old.mp3", mtime := 10 } : DirFile)
       ∉ [({ name := "new.mp3", mtime := 5 } : DirFile)]) := by
  constructor
  · intro url pre extract produced p he hok
    obtain ⟨f, hf, hp, hmax⟩ := download_mp3_ok url pre extract produced p he hok
    obtain ⟨hfmem, hfmp3⟩ := List.mem_filter.mp hf
    refine ⟨f, hfmem, hfmp3, hp, ?_⟩
    intro g hg hgmp3
    exact hmax g (List.mem_filter.mpr ⟨hg, hgmp3⟩)
  · exact ⟨by rfl, by decide⟩

/-- Witness for C9: applying it to the leftover scenario names the
returned file. -/
theorem claim_C9_witness :
    ∃ f, f ∈ [({ name := "old.mp3", mtime := 10 } : DirFile)] ++
        [({ name := "new.mp3", mtime := 5 } : DirFile)] ∧
      isMp3 f.name = true ∧
      "temp_downloads/old.mp3" = DOWNLOAD_DIR ++ "/" ++ f.name ∧
      ∀ g, g ∈ [({ name := "old.mp3", mtime := 10 } : DirFile)] ++
          [({ name := "new.mp3", mtime := 5 } : DirFile)] →
        isMp3 g.name = true → g.mtime ≤ f.mtime :=
  claim_C9.1 "u" [{ name := "old.mp3", mtime := 10 }]
    (fun _ _ => Except.ok [{ name := "new.mp3", mtime := 5 }])
    [{ name := "new.mp3", mtime := 5 }] "temp_downloads/old.mp3" rfl (by rfl)

/-- C6: with a URL argument, `/uploadtomega` stores that URL (stripped)
in the session map under the requesting user's id, replacing any previous
session and leaving other users' sessions untouched; with no argument it
replies with the usage message and leaves the session map unchanged. -/
theorem claim_C6 (uid : Nat) (args : List String) (sessions : List (Nat × Session))
    (tree : Except String (List (String × String))) :
    (args = [] →
      uploadtomega uid args sessions tree
        = { messages := [USAGE_MSG], sessions := sessions }) ∧
    (∀ arg0 rest, args = arg0 :: rest →
      (∃ s, List.lookup uid (uploadtomega uid args sessions tree).sessions = some s ∧
        s.url = stripStr arg0) ∧
      (∀ v, v ≠ uid →
        List.lookup v (uploadtomega uid args sessions tree).sessions
          = List.lookup v sessions)) := by
  constructor
  · intro h; subst h; rfl
  · intro arg0 rest h
    subst h
    constructor
    · cases tree with
      | error e => exact ⟨_, lookup_setSession_self _ _ _, rfl⟩
      | ok folders =>
        by_cases hf : folders.isEmpty
        · simp only [uploadtomega, hf, if_true]
          exact ⟨_, lookup_setSession_self _ _ _, rfl⟩
        · simp only [uploadtomega, hf, Bool.false_eq_true, if_false]
          exact ⟨_, lookup_setSession_self _ _ _, rfl⟩
    · intro v hv
      cases tree with
      | error e => exact lookup_setSession_other _ _ _ _ hv
      | ok folders =>
        by_cases hf : folders.isEmpty
        · simp only [uploadtomega, hf, if_true]
          exact lookup_setSession_other _ _ _ _ hv
        · simp only [uploadtomega, hf, Bool.false_eq_true, if_false]
          rw [lookup_setSession_other _ _ _ _ hv]
          exact lookup_setSession_other _ _ _ _ hv

/-- Witness for C6: the usage branch and the storing branch at concrete
inputs. -/
theorem claim_C6_witness :
    (uploadtomega 5 [] [] (Except.ok [])
      = { messages := [USAGE_MSG], sessions := [] }) ∧
    (∃ s, List.lookup 5 (uploadtomega 5 ["myurl"] [] (Except.ok [])).sessions = some s ∧
      s.url = stripStr "myurl") :=
  ⟨(claim_C6 5 [] [] (Except.ok [])).1 rfl,
   ((claim_C6 5 ["myurl"] [] (Except.ok [])).2 "myurl" [] rfl).1⟩

end BotLogic
